import Mathlib

/-!
Shallow embedding of quexxon/parameter-js (src/src/index.ts).

The library exposes three operations:
  * makeParameter(initialValue, guard) — builds a callable cell. The initial
    value is passed through the guard before being stored; the cell is added
    to a WeakSet used for identity tracking.
  * isParameter(value) — WeakSet membership test; total, never throws.
  * parameterize(parameters, thunk) — validates its arguments, snapshots the
    current value of every listed parameter into a Map, applies the new
    values, awaits the thunk, and in a finally block restores every
    snapshotted value through the parameter's own setter.

Embedding choices:
  * JS runtime values are the inductive JSVal.  A parameter reference is
    JSVal.param id, an index into the heap's cell list; heap cells are only
    ever allocated by makeParameter, so id being in range is exactly
    "this value was produced by makeParameter" (JS references cannot be
    forged, and the WeakSet holds precisely the constructor's outputs).
  * A cell stores its current value and its guard closure; guards are Lean
    functions JSVal → Except JSErr JSVal (a unary callable that may throw).
  * Exceptions are modelled with Except / Option JSErr; stateful code
    threads the Heap explicitly and keeps the heap on the error path, since
    a JS exception does not roll back mutations.
  * A thunk argument is either a function value of a given declared arity
    together with its behaviour (a Body, which may read and write the heap
    and may throw), or a non-function value; isThunk accepts exactly the
    zero-arity functions, as in the source.
  * The try/finally of parameterize is modelled faithfully: the restore
    loop runs on every exit of the try block, and an exception raised
    inside the finally block replaces the pending completion.
-/

set_option maxHeartbeats 1000000

namespace ParameterJS

/-- JavaScript-style runtime values as far as the library inspects them:
the undefined sentinel, booleans, numbers, strings, arrays, plain function
values (carrying only their declared arity), and parameter references
(indices into the heap of cells allocated by makeParameter). -/
inductive JSVal where
  | undefined : JSVal
  | bool (b : Bool) : JSVal
  | num (n : Int) : JSVal
  | str (s : String) : JSVal
  | arr (elems : List JSVal) : JSVal
  | func (arity : Nat) : JSVal
  | param (id : Nat) : JSVal

/-- Thrown failures: TypeError raised by the library's own argument checks
(the spec's InvalidArgumentError / InvalidGuardError), or an arbitrary
guard-raised failure carrying a payload (the spec's ValidationError). -/
inductive JSErr where
  | typeError (msg : String) : JSErr
  | guardErr (v : JSVal) : JSErr

/-- A guard closure: a unary callable that either returns the (possibly
transformed) value or throws. -/
abbrev Guard := JSVal → Except JSErr JSVal

/-- The identity guard, the default used by makeParameter. -/
def idGuard : Guard := fun v => .ok v

/-- One parameter cell: the closure-private mutable slot together with the
guard captured at construction time. -/
structure Cell where
  value : JSVal
  guard : Guard

/-- The store of all cells allocated by makeParameter, in allocation order.
A JSVal.param id denotes the cell at index id; ids in range are exactly the
values the WeakSet parameterSet contains. -/
structure Heap where
  cells : List Cell

/-- Current stored value of cell id, if allocated. -/
def Heap.cellValue (h : Heap) (id : Nat) : Option JSVal :=
  (h.cells.get? id).map Cell.value

/-- Guard of cell id, if allocated. -/
def Heap.guardOf (h : Heap) (id : Nat) : Option Guard :=
  (h.cells.get? id).map Cell.guard

/-- Overwrite the value of the cell at index id, keeping its guard. -/
def setVal : List Cell → Nat → JSVal → List Cell
  | [], _, _ => []
  | c :: cs, 0, v => ⟨v, c.guard⟩ :: cs
  | c :: cs, n + 1, v => c :: setVal cs n v

/-- Heap after `value = guard(newValue)` succeeded on cell id. -/
def Heap.setCell (h : Heap) (id : Nat) (v : JSVal) : Heap :=
  ⟨setVal h.cells id v⟩

/-- Source `isPair`: Array.isArray(value) && value.length === 2. -/
def isPair : JSVal → Bool
  | .arr l => l.length == 2
  | _ => false

/-- Source `isParameter`: parameterSet.has(value).  In the embedding the
WeakSet contains exactly the in-range parameter references; the function is
total (never throws), returning false on every other value. -/
def isParameter (h : Heap) (v : JSVal) : Bool :=
  match v with
  | .param id => id < h.cells.length
  | _ => false

/-- Source `makeParameter`: `let value = guard(initialValue)` — if the guard
throws, the failure propagates unchanged and no cell is allocated; otherwise
a fresh cell holding the guard's result is appended and its reference (which
parameterSet now contains) is returned.  The `isGuard` arity check of the
source is vacuous here because Guard is unary by type. -/
def makeParameter (h : Heap) (initialValue : JSVal) (guard : Guard) :
    Except JSErr (Heap × JSVal) :=
  match guard initialValue with
  | .error e => .error e
  | .ok v => .ok (⟨h.cells ++ [⟨v, guard⟩]⟩, .param h.cells.length)

/-- Calling a parameter, the closure
`function (...args) { if (args.length > 0) { const [newValue] = args;
value = guard(newValue) } return value }`:
with zero arguments it returns the stored value without consulting the
guard; with one or more arguments it passes the first through the guard,
stores the result on success (returning it), and on guard failure leaves
the cell untouched and propagates the failure.  Calling a dangling id is
the (unreachable through the library surface) JS not-a-function crash. -/
def callParam (h : Heap) (id : Nat) (args : List JSVal) :
    Heap × Except JSErr JSVal :=
  match h.cells.get? id with
  | none => (h, .error (.typeError "value is not a function"))
  | some cell =>
    match args with
    | [] => (h, .ok cell.value)
    | newValue :: _ =>
      match cell.guard newValue with
      | .error e => (h, .error e)
      | .ok v => (h.setCell id v, .ok v)

/-- JS Map.prototype.set on a map represented as an insertion-ordered
association list: overwrite in place when the key is present, append
otherwise. -/
def mapSet (m : List (Nat × JSVal)) (k : Nat) (v : JSVal) :
    List (Nat × JSVal) :=
  if m.any (fun p => p.1 == k) then
    m.map (fun p => if p.1 == k then (k, v) else p)
  else m ++ [(k, v)]

/-- View of a value as a parameter reference, if it is one. -/
def asParamId : JSVal → Option Nat
  | .param id => some id
  | _ => none

/-- First component of the destructuring `const [parameter, value] = pair`. -/
def firstOfPair : JSVal → JSVal
  | .arr (a :: _) => a
  | _ => .undefined

/-- Second component of the destructuring `const [parameter, value] = pair`. -/
def secondOfPair : JSVal → JSVal
  | .arr (_ :: b :: _) => b
  | _ => .undefined

/-- The snapshot loop of parameterize:
`for (const [parameter] of parameters) { if (!isParameter(parameter)) throw
new TypeError(...); originalValues.set(parameter, parameter()) }`.
Reading a parameter with zero arguments does not mutate the heap, so the
loop only threads the accumulated Map. -/
def snapshotLoop (h : Heap) : List JSVal → List (Nat × JSVal) →
    Except JSErr (List (Nat × JSVal))
  | [], acc => .ok acc
  | pr :: rest, acc =>
    match asParamId (firstOfPair pr) with
    | some id =>
      match h.cells.get? id with
      | some cell => snapshotLoop h rest (mapSet acc id cell.value)
      | none => .error (.typeError "Expected first item of pair to be a parameter")
    | none => .error (.typeError "Expected first item of pair to be a parameter")

/-- The apply loop of parameterize:
`for (const [parameter, value] of parameters) { parameter(value) }`.
A guard failure partway aborts the loop, keeping the partially mutated heap
(the exception does not roll mutations back). -/
def applyLoop : Heap → List JSVal → Heap × Option JSErr
  | h, [] => (h, none)
  | h, pr :: rest =>
    match asParamId (firstOfPair pr) with
    | some id =>
      match callParam h id [secondOfPair pr] with
      | (h1, .ok _) => applyLoop h1 rest
      | (h1, .error e) => (h1, some e)
    | none => (h, some (.typeError "value is not a function"))

/-- The restore loop of the finally block:
`for (const [parameter, value] of originalValues.entries())
parameter(value)` — each restoration goes through the parameter's setter
and hence re-runs its guard; a guard failure aborts the loop and the
exception escapes the finally block. -/
def restoreLoop : Heap → List (Nat × JSVal) → Heap × Option JSErr
  | h, [] => (h, none)
  | h, (id, u) :: rest =>
    match callParam h id [u] with
    | (h1, .ok _) => restoreLoop h1 rest
    | (h1, .error e) => (h1, some e)

/-- The behaviour of a zero-argument function value: it may read and write
the heap (call, set, or make parameters; run nested parameterize) and
either returns a value or throws; the heap reflecting its partial effects
survives on the throwing path. -/
abbrev Body := Heap → Heap × Except JSErr JSVal

/-- A candidate `thunk` argument: a function value with its declared arity
and behaviour, or a non-function value. -/
inductive ThunkArg where
  | fn (arity : Nat) (body : Body) : ThunkArg
  | nonFn (v : JSVal) : ThunkArg

/-- Source `isThunk`: typeof value === "function" && value.length === 0. -/
def isThunk : ThunkArg → Bool
  | .fn 0 _ => true
  | _ => false

/-- Source `parameterize`, with the control flow of the original:
argument-shape checks first (array of pairs, then thunk), then the
snapshot loop (which performs the per-pair isParameter check and throws
before any mutation), then `try { apply; result = await thunk() } finally
{ restore }` and `return result`.  An exception raised by a guard inside
the finally block replaces the pending result or exception, as in JS. -/
def parameterize (h : Heap) (parameters : JSVal) (thunk : ThunkArg) :
    Heap × Except JSErr JSVal :=
  match parameters with
  | .arr pairs =>
    if pairs.all isPair then
      match thunk with
      | .fn 0 body =>
        match snapshotLoop h pairs [] with
        | .error e => (h, .error e)
        | .ok originalValues =>
          match applyLoop h pairs with
          | (h1, some e) =>
            match restoreLoop h1 originalValues with
            | (h2, some e2) => (h2, .error e2)
            | (h2, none) => (h2, .error e)
          | (h1, none) =>
            match body h1 with
            | (h2, result) =>
              match restoreLoop h2 originalValues with
              | (h3, some e2) => (h3, .error e2)
              | (h3, none) => (h3, result)
      | _ => (h, .error (.typeError "Expected second argument to be a thunk"))
    else (h, .error (.typeError "Expected first argument to be an array of pairs"))
  | _ => (h, .error (.typeError "Expected first argument to be an array of pairs"))

/-! ### Example guards and heaps used by concrete runs -/

/-- A guard that increments numbers and passes everything else through: it
accepts every value but is not idempotent on its outputs, so re-running it
at restore time changes the value. -/
def incGuard : Guard := fun v =>
  match v with
  | .num n => .ok (.num (n + 1))
  | x => .ok x

/-- Heap holding the single parameter makeParameter(1) (identity guard). -/
def heapOne : Heap := ⟨[⟨.num 1, idGuard⟩]⟩

/-- Heap holding a single parameter with the increment guard, value 1
(as produced by makeParameter(0, incGuard)). -/
def heapInc : Heap := ⟨[⟨.num 1, incGuard⟩]⟩

/-- Heap holding the single parameter makeParameter("z"). -/
def heapZ : Heap := ⟨[⟨.str "z", idGuard⟩]⟩

/-- The body `() => p()` reading parameter 0. -/
def getBody : Body := fun h => (h, (callParam h 0 []).2)

/-- The body `() => {}` (returns undefined, touches nothing). -/
def noopBody : Body := fun h => (h, .ok .undefined)

/-- A body that throws. -/
def throwBody : Body := fun h => (h, .error (.guardErr (.str "boom")))

/-! ### Basic lemmas about the heap primitives -/

theorem setVal_length (cs : List Cell) (id : Nat) (v : JSVal) :
    (setVal cs id v).length = cs.length := by
  induction cs generalizing id with
  | nil => rfl
  | cons c cs ih =>
    cases id with
    | zero => rfl
    | succ n => simp [setVal, ih]

theorem get_setVal_self (cs : List Cell) (id : Nat) (v : JSVal) (cell : Cell)
    (hc : cs.get? id = some cell) :
    (setVal cs id v).get? id = some ⟨v, cell.guard⟩ := by
  induction cs generalizing id with
  | nil => simp at hc
  | cons c cs ih =>
    cases id with
    | zero =>
      simp only [List.get?_cons_zero, Option.some.injEq] at hc
      subst hc; rfl
    | succ n =>
      simpa [setVal] using ih n hc

theorem get_setVal_ne (cs : List Cell) (id i : Nat) (v : JSVal) (hne : i ≠ id) :
    (setVal cs id v).get? i = cs.get? i := by
  induction cs generalizing id i with
  | nil => rfl
  | cons c cs ih =>
    cases id with
    | zero =>
      cases i with
      | zero => exact absurd rfl hne
      | succ j => rfl
    | succ n =>
      cases i with
      | zero => rfl
      | succ j =>
        simpa [setVal] using ih n j (fun hh => hne (by omega))

theorem setCell_get_self (h : Heap) (id : Nat) (v : JSVal) (cell : Cell)
    (hc : h.cells.get? id = some cell) :
    (h.setCell id v).cells.get? id = some ⟨v, cell.guard⟩ :=
  get_setVal_self h.cells id v cell hc

theorem setCell_get_ne (h : Heap) (id i : Nat) (v : JSVal) (hne : i ≠ id) :
    (h.setCell id v).cells.get? i = h.cells.get? i :=
  get_setVal_ne h.cells id i v hne

theorem setCell_length (h : Heap) (id : Nat) (v : JSVal) :
    (h.setCell id v).cells.length = h.cells.length :=
  setVal_length h.cells id v

theorem cellValue_setCell_self (h : Heap) (id : Nat) (v : JSVal) (cell : Cell)
    (hc : h.cells.get? id = some cell) :
    (h.setCell id v).cellValue id = some v := by
  unfold Heap.cellValue
  rw [setCell_get_self h id v cell hc]
  rfl

theorem cellValue_setCell_ne (h : Heap) (id i : Nat) (v : JSVal) (hne : i ≠ id) :
    (h.setCell id v).cellValue i = h.cellValue i := by
  unfold Heap.cellValue
  rw [setCell_get_ne h id i v hne]

theorem guardOf_setCell (h : Heap) (id i : Nat) (v : JSVal) :
    (h.setCell id v).guardOf i = h.guardOf i := by
  by_cases hi : i = id
  · subst hi
    cases hc : h.cells.get? i with
    | none =>
      have hlen : h.cells.length ≤ i := List.get?_eq_none.mp hc
      have hlen2 : (h.setCell i v).cells.length ≤ i := by
        rw [setCell_length]; exact hlen
      unfold Heap.guardOf
      rw [List.get?_eq_none.mpr hlen2, hc]
    | some cell =>
      unfold Heap.guardOf
      rw [setCell_get_self h i v cell hc, hc]
      rfl
  · unfold Heap.guardOf
    rw [setCell_get_ne h id i v hi]

/-! ### Guard preservation: no library operation ever changes a cell's
guard or removes a cell; bodies are JS code, which cannot either. -/

/-- Heap evolution as JS code can perform it: cells are never deallocated
and a cell's guard (a construction-time closure local) is never replaced. -/
def guardsPreserved (h h2 : Heap) : Prop :=
  h.cells.length ≤ h2.cells.length ∧
  ∀ id cell, h.cells.get? id = some cell →
    ∃ cell2, h2.cells.get? id = some cell2 ∧
      cell2.guard = cell.guard

/-- A Body is sound as the behaviour of JS code: whatever it does to the
heap preserves allocated cells and their guards. -/
def BodyOk (body : Body) : Prop :=
  ∀ h, guardsPreserved h (body h).1

theorem guardsPreserved_refl (h : Heap) : guardsPreserved h h :=
  ⟨le_refl _, fun _ cell hc => ⟨cell, hc, rfl⟩⟩

theorem guardsPreserved_trans {h1 h2 h3 : Heap}
    (a : guardsPreserved h1 h2) (b : guardsPreserved h2 h3) :
    guardsPreserved h1 h3 := by
  refine ⟨le_trans a.1 b.1, fun id cell hc => ?_⟩
  obtain ⟨c2, hc2, hg2⟩ := a.2 id cell hc
  obtain ⟨c3, hc3, hg3⟩ := b.2 id c2 hc2
  exact ⟨c3, hc3, hg3.trans hg2⟩

theorem guardsPreserved_setCell (h : Heap) (id : Nat) (v : JSVal) :
    guardsPreserved h (h.setCell id v) := by
  refine ⟨le_of_eq (setCell_length h id v).symm, fun i cell hc => ?_⟩
  by_cases hi : i = id
  · subst hi
    exact ⟨⟨v, cell.guard⟩, setCell_get_self h i v cell hc, rfl⟩
  · exact ⟨cell, (setCell_get_ne h id i v hi).trans hc, rfl⟩

/-! ### Equation lemmas for callParam and the loops -/

theorem callParam_dangling (h : Heap) (id : Nat) (args : List JSVal)
    (hc : h.cells.get? id = none) :
    callParam h id args = (h, .error (.typeError "value is not a function")) := by
  unfold callParam
  rw [hc]

theorem callParam_get (h : Heap) (id : Nat) (cell : Cell)
    (hc : h.cells.get? id = some cell) :
    callParam h id [] = (h, .ok cell.value) := by
  unfold callParam
  rw [hc]

theorem callParam_set_ok (h : Heap) (id : Nat) (cell : Cell)
    (a : JSVal) (rest : List JSVal) (v : JSVal)
    (hc : h.cells.get? id = some cell) (hg : cell.guard a = .ok v) :
    callParam h id (a :: rest) = (h.setCell id v, .ok v) := by
  unfold callParam
  rw [hc]
  simp [hg]

theorem callParam_set_err (h : Heap) (id : Nat) (cell : Cell)
    (a : JSVal) (rest : List JSVal) (e : JSErr)
    (hc : h.cells.get? id = some cell) (hg : cell.guard a = .error e) :
    callParam h id (a :: rest) = (h, .error e) := by
  unfold callParam
  rw [hc]
  simp [hg]

theorem applyLoop_cons_ok (h h1 : Heap) (pr : JSVal) (rest : List JSVal)
    (id : Nat) (v : JSVal)
    (hfp : asParamId (firstOfPair pr) = some id)
    (hres : callParam h id [secondOfPair pr] = (h1, .ok v)) :
    applyLoop h (pr :: rest) = applyLoop h1 rest := by
  simp [applyLoop, hfp, hres]

theorem applyLoop_cons_err (h h1 : Heap) (pr : JSVal) (rest : List JSVal)
    (id : Nat) (e : JSErr)
    (hfp : asParamId (firstOfPair pr) = some id)
    (hres : callParam h id [secondOfPair pr] = (h1, .error e)) :
    applyLoop h (pr :: rest) = (h1, some e) := by
  simp [applyLoop, hfp, hres]

theorem guardsPreserved_callParam (h : Heap) (id : Nat) (args : List JSVal) :
    guardsPreserved h (callParam h id args).1 := by
  cases hc : h.cells.get? id with
  | none => rw [callParam_dangling h id args hc]; exact guardsPreserved_refl h
  | some cell =>
    cases args with
    | nil => rw [callParam_get h id cell hc]; exact guardsPreserved_refl h
    | cons a rest =>
      cases hg : cell.guard a with
      | error e =>
        rw [callParam_set_err h id cell a rest e hc hg]
        exact guardsPreserved_refl h
      | ok v =>
        rw [callParam_set_ok h id cell a rest v hc hg]
        exact guardsPreserved_setCell h id v

theorem guardsPreserved_applyLoop (h : Heap) (pairs : List JSVal) :
    guardsPreserved h (applyLoop h pairs).1 := by
  induction pairs generalizing h with
  | nil => exact guardsPreserved_refl h
  | cons pr rest ih =>
    cases hfp : asParamId (firstOfPair pr) with
    | none =>
      have heq : applyLoop h (pr :: rest) = (h, some (.typeError "value is not a function")) := by
        simp [applyLoop, hfp]
      rw [heq]
      exact guardsPreserved_refl h
    | some id =>
      have hcp := guardsPreserved_callParam h id [secondOfPair pr]
      rcases hres : callParam h id [secondOfPair pr] with ⟨h1, r⟩
      rw [hres] at hcp
      cases r with
      | ok v =>
        rw [applyLoop_cons_ok h h1 pr rest id v hfp hres]
        exact guardsPreserved_trans hcp (ih h1)
      | error e =>
        rw [applyLoop_cons_err h h1 pr rest id e hfp hres]
        exact hcp

/-! ### Map.set lemmas -/

theorem mem_mapSet (m : List (Nat × JSVal)) (k : Nat) (v : JSVal)
    (q : Nat × JSVal) (hq : q ∈ mapSet m k v) : q = (k, v) ∨ q ∈ m := by
  unfold mapSet at hq
  by_cases hmem : m.any (fun p => p.1 == k) = true
  · rw [if_pos hmem] at hq
    rcases List.mem_map.mp hq with ⟨p, hp, hpq⟩
    by_cases hk : (p.1 == k) = true
    · left
      rw [if_pos hk] at hpq
      exact hpq.symm
    · right
      rw [if_neg hk] at hpq
      rw [← hpq]
      exact hp
  · rw [if_neg hmem] at hq
    rcases List.mem_append.mp hq with hin | hin
    · right; exact hin
    · left; simpa using hin

theorem mapSet_keys (m : List (Nat × JSVal)) (k : Nat) (v : JSVal) :
    (mapSet m k v).map Prod.fst =
      if m.any (fun p => p.1 == k) = true then m.map Prod.fst
      else m.map Prod.fst ++ [k] := by
  unfold mapSet
  by_cases hmem : m.any (fun p => p.1 == k) = true
  · rw [if_pos hmem, if_pos hmem, List.map_map]
    apply List.map_congr_left
    intro p _
    by_cases hk : (p.1 == k) = true
    · simp only [Function.comp_apply, if_pos hk]
      have hpk : p.1 = k := by simpa using hk
      exact hpk.symm
    · simp only [Function.comp_apply, if_neg hk]
  · rw [if_neg hmem, if_neg hmem, List.map_append]
    rfl

theorem mapSet_nodup (m : List (Nat × JSVal)) (k : Nat) (v : JSVal)
    (hnd : (m.map Prod.fst).Nodup) : ((mapSet m k v).map Prod.fst).Nodup := by
  rw [mapSet_keys]
  by_cases hmem : m.any (fun p => p.1 == k) = true
  · rw [if_pos hmem]; exact hnd
  · rw [if_neg hmem]
    have hk : k ∉ m.map Prod.fst := by
      intro hcontra
      apply hmem
      rcases List.mem_map.mp hcontra with ⟨p, hp, hpk⟩
      exact List.any_eq_true.mpr ⟨p, hp, by simp [hpk]⟩
    simp [List.nodup_append, hnd, hk]

/-! ### isParameter and cell lookup -/

theorem lt_length_iff_get (cs : List Cell) (id : Nat) :
    id < cs.length ↔ ∃ cell, cs.get? id = some cell := by
  constructor
  · intro hlt
    cases hc : cs.get? id with
    | none => exact absurd (List.get?_eq_none.mp hc) (not_le.mpr hlt)
    | some c => exact ⟨c, rfl⟩
  · rintro ⟨c, hc⟩
    by_contra hle
    rw [List.get?_eq_none.mpr (not_lt.mp hle)] at hc
    cases hc

theorem isParameter_iff (h : Heap) (v : JSVal) :
    isParameter h v = true ↔
      ∃ id, asParamId v = some id ∧ ∃ cell, h.cells.get? id = some cell := by
  cases v with
  | param id =>
    simp only [isParameter, asParamId, decide_eq_true_eq, Option.some.injEq]
    constructor
    · intro hlt
      exact ⟨id, rfl, (lt_length_iff_get h.cells id).mp hlt⟩
    · rintro ⟨i, hi, hc⟩
      subst hi
      exact (lt_length_iff_get h.cells id).mpr hc
  | undefined => simp [isParameter, asParamId]
  | bool b => simp [isParameter, asParamId]
  | num n => simp [isParameter, asParamId]
  | str s => simp [isParameter, asParamId]
  | arr l => simp [isParameter, asParamId]
  | func n => simp [isParameter, asParamId]

/-! ### snapshotLoop lemmas -/

theorem snapshotLoop_nil (h : Heap) (acc : List (Nat × JSVal)) :
    snapshotLoop h [] acc = .ok acc := rfl

theorem snapshotLoop_cons_ok (h : Heap) (pr : JSVal) (rest : List JSVal)
    (acc : List (Nat × JSVal)) (id : Nat) (cell : Cell)
    (hfp : asParamId (firstOfPair pr) = some id)
    (hc : h.cells.get? id = some cell) :
    snapshotLoop h (pr :: rest) acc =
      snapshotLoop h rest (mapSet acc id cell.value) := by
  simp only [snapshotLoop, hfp, hc]

theorem snapshotLoop_cons_nonparam (h : Heap) (pr : JSVal)
    (rest : List JSVal) (acc : List (Nat × JSVal))
    (hfp : asParamId (firstOfPair pr) = none) :
    snapshotLoop h (pr :: rest) acc =
      .error (.typeError "Expected first item of pair to be a parameter") := by
  simp only [snapshotLoop, hfp]

theorem snapshotLoop_cons_dangling (h : Heap) (pr : JSVal)
    (rest : List JSVal) (acc : List (Nat × JSVal)) (id : Nat)
    (hfp : asParamId (firstOfPair pr) = some id)
    (hc : h.cells.get? id = none) :
    snapshotLoop h (pr :: rest) acc =
      .error (.typeError "Expected first item of pair to be a parameter") := by
  simp only [snapshotLoop, hfp, hc]

theorem snapshotLoop_entries (h : Heap) (pairs : List JSVal) :
    ∀ acc m : List (Nat × JSVal),
    snapshotLoop h pairs acc = .ok m →
    (∀ p ∈ acc, h.cellValue p.1 = some p.2) →
    ∀ p ∈ m, h.cellValue p.1 = some p.2 := by
  induction pairs with
  | nil =>
    intro acc m hs hacc
    rw [snapshotLoop_nil] at hs
    cases hs
    exact hacc
  | cons pr rest ih =>
    intro acc m hs hacc
    cases hfp : asParamId (firstOfPair pr) with
    | none => rw [snapshotLoop_cons_nonparam h pr rest acc hfp] at hs; cases hs
    | some id =>
      cases hc : h.cells.get? id with
      | none => rw [snapshotLoop_cons_dangling h pr rest acc id hfp hc] at hs; cases hs
      | some cell =>
        rw [snapshotLoop_cons_ok h pr rest acc id cell hfp hc] at hs
        refine ih (mapSet acc id cell.value) m hs ?_
        intro p hp
        rcases mem_mapSet acc id cell.value p hp with heq | hin
        · subst heq
          unfold Heap.cellValue
          rw [hc]
          rfl
        · exact hacc p hin

theorem snapshotLoop_nodup (h : Heap) (pairs : List JSVal) :
    ∀ acc m : List (Nat × JSVal),
    snapshotLoop h pairs acc = .ok m →
    (acc.map Prod.fst).Nodup → (m.map Prod.fst).Nodup := by
  induction pairs with
  | nil =>
    intro acc m hs hacc
    rw [snapshotLoop_nil] at hs
    cases hs
    exact hacc
  | cons pr rest ih =>
    intro acc m hs hacc
    cases hfp : asParamId (firstOfPair pr) with
    | none => rw [snapshotLoop_cons_nonparam h pr rest acc hfp] at hs; cases hs
    | some id =>
      cases hc : h.cells.get? id with
      | none => rw [snapshotLoop_cons_dangling h pr rest acc id hfp hc] at hs; cases hs
      | some cell =>
        rw [snapshotLoop_cons_ok h pr rest acc id cell hfp hc] at hs
        exact ih (mapSet acc id cell.value) m hs (mapSet_nodup acc id cell.value hacc)

theorem snapshotLoop_ok_of_valid (h : Heap) (pairs : List JSVal)
    (hvalid : ∀ pr ∈ pairs, isParameter h (firstOfPair pr) = true) :
    ∀ acc, ∃ m, snapshotLoop h pairs acc = .ok m := by
  induction pairs with
  | nil => intro acc; exact ⟨acc, rfl⟩
  | cons pr rest ih =>
    intro acc
    obtain ⟨id, hfp, cell, hc⟩ :=
      (isParameter_iff h (firstOfPair pr)).mp (hvalid pr (List.mem_cons_self _ _))
    obtain ⟨m, hm⟩ := ih (fun q hq => hvalid q (List.mem_cons_of_mem _ hq))
      (mapSet acc id cell.value)
    exact ⟨m, (snapshotLoop_cons_ok h pr rest acc id cell hfp hc).trans hm⟩

theorem snapshotLoop_error_of_invalid (h : Heap) (pairs : List JSVal)
    (hbad : ∃ pr ∈ pairs, isParameter h (firstOfPair pr) = false) :
    ∀ acc, snapshotLoop h pairs acc =
      .error (.typeError "Expected first item of pair to be a parameter") := by
  induction pairs with
  | nil => rcases hbad with ⟨pr, hpr, _⟩; cases hpr
  | cons pr rest ih =>
    intro acc
    by_cases hfst : isParameter h (firstOfPair pr) = true
    · obtain ⟨id, hfp, cell, hc⟩ := (isParameter_iff h (firstOfPair pr)).mp hfst
      have hbad' : ∃ q ∈ rest, isParameter h (firstOfPair q) = false := by
        rcases hbad with ⟨q, hq, hqbad⟩
        rcases List.mem_cons.mp hq with rfl | hq'
        · rw [hfst] at hqbad; cases hqbad
        · exact ⟨q, hq', hqbad⟩
      rw [snapshotLoop_cons_ok h pr rest acc id cell hfp hc]
      exact ih hbad' (mapSet acc id cell.value)
    · cases hfp : asParamId (firstOfPair pr) with
      | none => exact snapshotLoop_cons_nonparam h pr rest acc hfp
      | some id =>
        cases hc : h.cells.get? id with
        | none => exact snapshotLoop_cons_dangling h pr rest acc id hfp hc
        | some cell =>
          exact absurd ((isParameter_iff h (firstOfPair pr)).mpr ⟨id, hfp, cell, hc⟩) hfst

/-! ### restoreLoop lemmas -/

theorem restoreLoop_cons_ok (h : Heap) (k : Nat) (u : JSVal)
    (rest : List (Nat × JSVal)) (cell : Cell) (w : JSVal)
    (hc : h.cells.get? k = some cell) (hg : cell.guard u = .ok w) :
    restoreLoop h ((k, u) :: rest) = restoreLoop (h.setCell k w) rest := by
  simp only [restoreLoop, callParam_set_ok h k cell u [] w hc hg]

theorem restoreLoop_cons_err (h : Heap) (k : Nat) (u : JSVal)
    (rest : List (Nat × JSVal)) (cell : Cell) (e : JSErr)
    (hc : h.cells.get? k = some cell) (hg : cell.guard u = .error e) :
    restoreLoop h ((k, u) :: rest) = (h, some e) := by
  simp only [restoreLoop, callParam_set_err h k cell u [] e hc hg]

theorem restoreLoop_cons_dangling (h : Heap) (k : Nat) (u : JSVal)
    (rest : List (Nat × JSVal)) (hc : h.cells.get? k = none) :
    restoreLoop h ((k, u) :: rest) =
      (h, some (.typeError "value is not a function")) := by
  simp only [restoreLoop, callParam_dangling h k [u] hc]

theorem restoreLoop_untouched (m : List (Nat × JSVal)) :
    ∀ (h : Heap) (id : Nat), (∀ p ∈ m, p.1 ≠ id) →
    (restoreLoop h m).1.cellValue id = h.cellValue id := by
  induction m with
  | nil => intro h id _; rfl
  | cons q rest ih =>
    rintro h id hne
    rcases q with ⟨k, u⟩
    have hkid : k ≠ id := hne (k, u) (List.mem_cons_self _ _)
    cases hc : h.cells.get? k with
    | none => rw [restoreLoop_cons_dangling h k u rest hc]
    | some cell =>
      cases hg : cell.guard u with
      | error e => rw [restoreLoop_cons_err h k u rest cell e hc hg]
      | ok w =>
        rw [restoreLoop_cons_ok h k u rest cell w hc hg]
        rw [ih (h.setCell k w) id (fun p hp => hne p (List.mem_cons_of_mem _ hp))]
        exact cellValue_setCell_ne h k id w (Ne.symm hkid)

theorem restoreLoop_all_ok (m : List (Nat × JSVal)) :
    ∀ h : Heap,
    (m.map Prod.fst).Nodup →
    (∀ p ∈ m, ∃ cell w, h.cells.get? p.1 = some cell ∧ cell.guard p.2 = .ok w) →
    (restoreLoop h m).2 = none ∧
    ∀ p ∈ m, ∃ cell w, h.cells.get? p.1 = some cell ∧ cell.guard p.2 = .ok w ∧
      (restoreLoop h m).1.cellValue p.1 = some w := by
  induction m with
  | nil =>
    intro h _ _
    exact ⟨rfl, fun p hp => absurd hp (List.not_mem_nil p)⟩
  | cons q rest ih =>
    rintro h hnd hall
    rcases q with ⟨k, u⟩
    obtain ⟨cell, w, hc, hg⟩ := hall (k, u) (List.mem_cons_self _ _)
    have hknotin : ∀ p ∈ rest, p.1 ≠ k := by
      intro p hp hpk
      have : k ∈ rest.map Prod.fst := List.mem_map.mpr ⟨p, hp, hpk⟩
      simp only [List.map_cons, List.nodup_cons] at hnd
      exact hnd.1 this
    have hnd' : (rest.map Prod.fst).Nodup := by
      simp only [List.map_cons, List.nodup_cons] at hnd
      exact hnd.2
    have hall' : ∀ p ∈ rest,
        ∃ cell2 w2, (h.setCell k w).cells.get? p.1 = some cell2 ∧
          cell2.guard p.2 = .ok w2 := by
      intro p hp
      obtain ⟨cell2, w2, hc2, hg2⟩ := hall p (List.mem_cons_of_mem _ hp)
      exact ⟨cell2, w2,
        (setCell_get_ne h k p.1 w (hknotin p hp)).trans hc2, hg2⟩
    obtain ⟨hnone, hrest⟩ := ih (h.setCell k w) hnd' hall'
    rw [restoreLoop_cons_ok h k u rest cell w hc hg]
    refine ⟨hnone, ?_⟩
    intro p hp
    rcases List.mem_cons.mp hp with rfl | hp'
    · refine ⟨cell, w, hc, hg, ?_⟩
      rw [restoreLoop_untouched rest (h.setCell k w) k hknotin]
      exact cellValue_setCell_self h k w cell hc
    · obtain ⟨cell2, w2, hc2, hg2, hval⟩ := hrest p hp'
      exact ⟨cell2, w2,
        ((setCell_get_ne h k p.1 w (hknotin p hp')).symm.trans hc2), hg2, hval⟩

/-! ### parameterize: run characterization -/

theorem parameterize_run (h : Heap) (pairs : List JSVal) (body : Body)
    (m : List (Nat × JSVal))
    (hall : pairs.all isPair = true)
    (hsnap : snapshotLoop h pairs [] = .ok m) :
    parameterize h (.arr pairs) (.fn 0 body) =
      match applyLoop h pairs with
      | (h1, some e) =>
        (match restoreLoop h1 m with
         | (h2, some e2) => (h2, .error e2)
         | (h2, none) => (h2, .error e))
      | (h1, none) =>
        (match body h1 with
         | (h2, result) =>
           match restoreLoop h2 m with
           | (h3, some e2) => (h3, .error e2)
           | (h3, none) => (h3, result)) := by
  simp only [parameterize, hall, if_true, hsnap]

/-! ### Single-binding runs -/

theorem snapshot_single (h : Heap) (id : Nat) (cell : Cell) (v : JSVal)
    (hc : h.cells.get? id = some cell) :
    snapshotLoop h [.arr [.param id, v]] [] = .ok [(id, cell.value)] := by
  rw [snapshotLoop_cons_ok h (.arr [.param id, v]) [] [] id cell rfl hc]
  rfl

theorem apply_single_ok (h : Heap) (id : Nat) (cell : Cell) (bv av : JSVal)
    (hc : h.cells.get? id = some cell) (hg : cell.guard bv = .ok av) :
    applyLoop h [.arr [.param id, bv]] = (h.setCell id av, none) := by
  rw [applyLoop_cons_ok h (h.setCell id av) (.arr [.param id, bv]) [] id av rfl
    (callParam_set_ok h id cell bv [] av hc hg)]
  rfl

theorem apply_single_err (h : Heap) (id : Nat) (cell : Cell) (bv : JSVal)
    (e : JSErr) (hc : h.cells.get? id = some cell)
    (hg : cell.guard bv = .error e) :
    applyLoop h [.arr [.param id, bv]] = (h, some e) := by
  rw [applyLoop_cons_err h h (.arr [.param id, bv]) [] id e rfl
    (callParam_set_err h id cell bv [] e hc hg)]

theorem parameterize_single_ok (h : Heap) (id : Nat) (cell : Cell)
    (bv av : JSVal) (body : Body)
    (hc : h.cells.get? id = some cell) (hg : cell.guard bv = .ok av) :
    parameterize h (.arr [.arr [.param id, bv]]) (.fn 0 body) =
      (match body (h.setCell id av) with
       | (h2, result) =>
         match restoreLoop h2 [(id, cell.value)] with
         | (h3, some e2) => (h3, .error e2)
         | (h3, none) => (h3, result)) := by
  rw [parameterize_run h [.arr [.param id, bv]] body [(id, cell.value)] rfl
    (snapshot_single h id cell bv hc)]
  rw [apply_single_ok h id cell bv av hc hg]

theorem parameterize_single_applyfail (h : Heap) (id : Nat) (cell : Cell)
    (bv : JSVal) (e : JSErr) (body : Body)
    (hc : h.cells.get? id = some cell) (hg : cell.guard bv = .error e) :
    parameterize h (.arr [.arr [.param id, bv]]) (.fn 0 body) =
      (match restoreLoop h [(id, cell.value)] with
       | (h2, some e2) => (h2, .error e2)
       | (h2, none) => (h2, .error e)) := by
  rw [parameterize_run h [.arr [.param id, bv]] body [(id, cell.value)] rfl
    (snapshot_single h id cell bv hc)]
  rw [apply_single_err h id cell bv e hc hg]

/-! ### Further definitions used by the claims -/

/-- The body `() => p()` reading the parameter with the given id. -/
def getBodyAt (id : Nat) : Body := fun hh => (hh, (callParam hh id []).2)

/-- The body `() => parameterize([[p, v3]], () => p())`: a nested
parameterize call on the same parameter. -/
def innerCall (id : Nat) (v3 : JSVal) : Body := fun hh =>
  parameterize hh (.arr [.arr [.param id, v3]]) (.fn 0 (getBodyAt id))

/-- A guard that accepts only the number 5, rejecting everything else with
the offending value as payload. -/
def only5Guard : Guard := fun v =>
  match v with
  | .num 5 => .ok (.num 5)
  | x => .error (.guardErr x)

/-- Heap with one parameter whose guard accepts only 5, currently holding 1
(as if constructed before the guard became this strict, to exercise a
restore-time rejection). -/
def heapRej : Heap := ⟨[⟨.num 1, only5Guard⟩]⟩

/-- A validating guard in the style of the README example: rejects
non-positive numbers, passes everything else through. -/
def negGuard : Guard := fun v =>
  match v with
  | .num n => if n ≤ 0 then .error (.guardErr v) else .ok v
  | x => .ok x

/-- The cell invariant: every stored value is the output of a successful
run of that cell's own guard. -/
def heapValid (h : Heap) : Prop :=
  ∀ id cell, h.cells.get? id = some cell → ∃ w, cell.guard w = .ok cell.value

/-- The preconditions of parameterize on its first argument: an array of
exactly-two-element pairs whose first components all pass the parameter
identity check. -/
def validBindings (h : Heap) (parameters : JSVal) : Prop :=
  ∃ pairs, parameters = .arr pairs ∧ pairs.all isPair = true ∧
    ∀ pr ∈ pairs, isParameter h (firstOfPair pr) = true

/-! ## The claims -/

/-- Claim C8: get/set dispatch distinguishes argument count, not value.
A zero-argument call returns the stored value and leaves the heap alone
whatever the guard is (so the guard is not consulted); a one-argument call
with the undefined sentinel is a set: the guard runs on undefined, a
rejection propagates, an acceptance stores the guard's result; and when the
guard accepts undefined as undefined the parameter afterwards holds and
returns undefined. -/
theorem claim8_dispatch (h : Heap) (id : Nat) (cell : Cell)
    (hc : h.cells.get? id = some cell) :
    callParam h id [] = (h, .ok cell.value) ∧
    (∀ e, cell.guard .undefined = .error e →
       callParam h id [.undefined] = (h, .error e)) ∧
    (∀ w, cell.guard .undefined = .ok w →
       callParam h id [.undefined] = (h.setCell id w, .ok w) ∧
       (h.setCell id w).cellValue id = some w) ∧
    (cell.guard .undefined = .ok .undefined →
       (callParam (callParam h id [.undefined]).1 id []).2 = .ok .undefined) := by
  refine ⟨callParam_get h id cell hc, ?_, ?_, ?_⟩
  · intro e hg
    exact callParam_set_err h id cell .undefined [] e hc hg
  · intro w hg
    exact ⟨callParam_set_ok h id cell .undefined [] w hc hg,
      cellValue_setCell_self h id w cell hc⟩
  · intro hg
    rw [callParam_set_ok h id cell .undefined [] .undefined hc hg]
    rw [callParam_get (h.setCell id .undefined) id ⟨.undefined, cell.guard⟩
      (setCell_get_self h id .undefined cell hc)]

/-- Witness for claim C8 at the concrete parameter makeParameter(1): a get
returns 1, and setting undefined stores and then returns undefined. -/
theorem claim8_witness :
    callParam heapOne 0 [] = (heapOne, .ok (.num 1)) ∧
    (callParam (callParam heapOne 0 [.undefined]).1 0 []).2 = .ok .undefined := by
  have hmain := claim8_dispatch heapOne 0 ⟨.num 1, idGuard⟩ rfl
  exact ⟨hmain.1, hmain.2.2.2 rfl⟩

/-- Claim C10: calling a parameter with more than one argument behaves
exactly like calling it with only the first argument: the guard runs on the
first argument alone, the extra arguments are ignored, and no failure is
raised on their account. -/
theorem claim10_extra_args (h : Heap) (id : Nat) (a b : JSVal)
    (rest : List JSVal) :
    callParam h id (a :: b :: rest) = callParam h id [a] := by
  cases hc : h.cells.get? id with
  | none =>
    rw [callParam_dangling h id (a :: b :: rest) hc,
      callParam_dangling h id [a] hc]
  | some cell =>
    cases hg : cell.guard a with
    | ok v =>
      rw [callParam_set_ok h id cell a (b :: rest) v hc hg,
        callParam_set_ok h id cell a [] v hc hg]
    | error e =>
      rw [callParam_set_err h id cell a (b :: rest) e hc hg,
        callParam_set_err h id cell a [] e hc hg]

/-- Helper: single binding, successful application, body `() => {}`, guard
re-accepting the snapshot as w: the run ends with the cell set to av and
then restored to w, returning undefined. -/
theorem parameterize_noop_restore_ok (h : Heap) (id : Nat) (cell : Cell)
    (bv av w : JSVal)
    (hc : h.cells.get? id = some cell) (hg : cell.guard bv = .ok av)
    (hw : cell.guard cell.value = .ok w) :
    parameterize h (.arr [.arr [.param id, bv]]) (.fn 0 noopBody) =
      ((h.setCell id av).setCell id w, .ok .undefined) := by
  have hc1 : (h.setCell id av).cells.get? id = some ⟨av, cell.guard⟩ :=
    setCell_get_self h id av cell hc
  rw [parameterize_single_ok h id cell bv av noopBody hc hg]
  show (match restoreLoop (h.setCell id av) [(id, cell.value)] with
    | (h3, some e2) => (h3, Except.error e2)
    | (h3, none) => (h3, Except.ok JSVal.undefined)) =
      ((h.setCell id av).setCell id w, .ok .undefined)
  rw [restoreLoop_cons_ok (h.setCell id av) id cell.value []
    ⟨av, cell.guard⟩ w hc1 hw]
  rfl

/-- Helper: single binding, successful application, body `() => {}`, guard
rejecting the snapshot: the restoration throws from the finally block, so
parameterize surfaces the guard failure and the cell stays at av. -/
theorem parameterize_noop_restore_err (h : Heap) (id : Nat) (cell : Cell)
    (bv av : JSVal) (e : JSErr)
    (hc : h.cells.get? id = some cell) (hg : cell.guard bv = .ok av)
    (he : cell.guard cell.value = .error e) :
    parameterize h (.arr [.arr [.param id, bv]]) (.fn 0 noopBody) =
      (h.setCell id av, .error e) := by
  have hc1 : (h.setCell id av).cells.get? id = some ⟨av, cell.guard⟩ :=
    setCell_get_self h id av cell hc
  rw [parameterize_single_ok h id cell bv av noopBody hc hg]
  show (match restoreLoop (h.setCell id av) [(id, cell.value)] with
    | (h3, some e2) => (h3, Except.error e2)
    | (h3, none) => (h3, Except.ok JSVal.undefined)) = (h.setCell id av, .error e)
  rw [restoreLoop_cons_err (h.setCell id av) id cell.value []
    ⟨av, cell.guard⟩ e hc1 he]

/-- Claim C9: the restoration step of parameterize goes through the
parameter's own setter and so re-runs the guard on the snapshotted value u:
for a single binding whose application succeeds and a body that merely
returns, the post-call stored value is the guard's output on u whenever the
guard accepts u, and when the guard rejects u the restoration itself throws
and parameterize surfaces that failure (the parameter stays at the bound
value). -/
theorem claim9_restore_setter (h : Heap) (id : Nat) (cell : Cell)
    (bv av : JSVal)
    (hc : h.cells.get? id = some cell) (hg : cell.guard bv = .ok av) :
    (∀ w, cell.guard cell.value = .ok w →
       parameterize h (.arr [.arr [.param id, bv]]) (.fn 0 noopBody) =
         ((h.setCell id av).setCell id w, .ok .undefined) ∧
       ((h.setCell id av).setCell id w).cellValue id = some w) ∧
    (∀ e, cell.guard cell.value = .error e →
       parameterize h (.arr [.arr [.param id, bv]]) (.fn 0 noopBody) =
         (h.setCell id av, .error e)) := by
  have hc1 : (h.setCell id av).cells.get? id = some ⟨av, cell.guard⟩ :=
    setCell_get_self h id av cell hc
  constructor
  · intro w hw
    refine ⟨parameterize_noop_restore_ok h id cell bv av w hc hg hw, ?_⟩
    exact cellValue_setCell_self (h.setCell id av) id w ⟨av, cell.guard⟩ hc1
  · intro e he
    exact parameterize_noop_restore_err h id cell bv av e hc hg he

/-- Witness for claim C9: with the increment guard holding 1, restoring
runs the guard again so the parameter ends at 2; with a guard that accepts
only 5, the restoration of the original 1 throws and parameterize reports
that guard failure. -/
theorem claim9_witness :
    parameterize heapInc (.arr [.arr [.param 0, .num 5]]) (.fn 0 noopBody) =
      ((heapInc.setCell 0 (.num 6)).setCell 0 (.num 2), .ok .undefined) ∧
    parameterize heapRej (.arr [.arr [.param 0, .num 5]]) (.fn 0 noopBody) =
      (heapRej.setCell 0 (.num 5), .error (.guardErr (.num 1))) := by
  constructor
  · exact ((claim9_restore_setter heapInc 0 ⟨.num 1, incGuard⟩ (.num 5)
      (.num 6) rfl rfl).1 (.num 2) rfl).1
  · exact (claim9_restore_setter heapRej 0 ⟨.num 1, only5Guard⟩ (.num 5)
      (.num 5) rfl rfl).2 (.guardErr (.num 1)) rfl

/-- Claim C2 counterexample: the claim quantifies over parameters with any
guard, but with the increment guard (which accepts every value) the
parameter holds 1 before the call and 2 after parameterize([[p, 5]],
() => {}) — restoration re-ran the guard instead of writing the snapshot
back raw. -/
theorem claim2_counterexample :
    heapInc.cellValue 0 = some (.num 1) ∧
    (parameterize heapInc (.arr [.arr [.param 0, .num 5]])
        (.fn 0 noopBody)).1.cellValue 0 = some (.num 2) ∧
    some (JSVal.num 2) ≠ some (JSVal.num 1) := by
  refine ⟨rfl, rfl, ?_⟩
  simp

/-- Claim C2 amended: after parameterize([[p, v]], () => {}) completes,
p() equals p's guard applied to the value p held immediately before the
call (provided the guard accepts both v and that pre-call value); this is
the pre-call value itself exactly when the guard fixes it, which holds in
particular for the default identity guard. -/
theorem claim2_roundtrip_guard (h : Heap) (id : Nat) (cell : Cell)
    (bv av w : JSVal)
    (hc : h.cells.get? id = some cell) (hg : cell.guard bv = .ok av)
    (hrestore : cell.guard cell.value = .ok w) :
    (parameterize h (.arr [.arr [.param id, bv]]) (.fn 0 noopBody)).2 =
      .ok .undefined ∧
    (parameterize h (.arr [.arr [.param id, bv]])
        (.fn 0 noopBody)).1.cellValue id = some w ∧
    (w = cell.value →
       (parameterize h (.arr [.arr [.param id, bv]])
           (.fn 0 noopBody)).1.cellValue id = h.cellValue id) := by
  have hrun := parameterize_noop_restore_ok h id cell bv av w hc hg hrestore
  have hc1 : (h.setCell id av).cells.get? id = some ⟨av, cell.guard⟩ :=
    setCell_get_self h id av cell hc
  have hval : ((h.setCell id av).setCell id w).cellValue id = some w :=
    cellValue_setCell_self (h.setCell id av) id w ⟨av, cell.guard⟩ hc1
  rw [hrun]
  refine ⟨rfl, hval, ?_⟩
  intro hwv
  rw [hval, hwv]
  unfold Heap.cellValue
  rw [hc]
  rfl

/-- Witness for claim C2 amended: for the identity-guard parameter
makeParameter(1), the round-trip restores the pre-call value 1 exactly. -/
theorem claim2_witness :
    (parameterize heapOne (.arr [.arr [.param 0, .num 5]])
        (.fn 0 noopBody)).2 = .ok .undefined ∧
    (parameterize heapOne (.arr [.arr [.param 0, .num 5]])
        (.fn 0 noopBody)).1.cellValue 0 = heapOne.cellValue 0 := by
  have hmain := claim2_roundtrip_guard heapOne 0 ⟨.num 1, idGuard⟩ (.num 5)
    (.num 5) (.num 1) rfl rfl rfl
  exact ⟨hmain.1, hmain.2.2 rfl⟩

/-- Claim C3: a cell only ever holds successful guard outputs.
makeParameter stores guard(initialValue) and fresh construction fails,
propagating the guard's failure unchanged, when the guard raises; a set
whose guard raises propagates the failure and leaves the stored value
unchanged; and the invariant that every stored value is the output of a
successful run of its own guard is established by makeParameter and
preserved by every parameter call. -/
theorem claim3_guard_invariant :
    (∀ (h : Heap) (g : Guard) (init v : JSVal),
       g init = .ok v →
       makeParameter h init g =
         .ok (⟨h.cells ++ [⟨v, g⟩]⟩, .param h.cells.length)) ∧
    (∀ (h : Heap) (g : Guard) (init : JSVal) (e : JSErr),
       g init = .error e → makeParameter h init g = .error e) ∧
    (∀ (h : Heap) (id : Nat) (cell : Cell) (v : JSVal) (e : JSErr),
       h.cells.get? id = some cell → cell.guard v = .error e →
       callParam h id [v] = (h, .error e)) ∧
    (∀ (h : Heap) (init : JSVal) (g : Guard) (h2 : Heap) (p : JSVal),
       heapValid h → makeParameter h init g = .ok (h2, p) → heapValid h2) ∧
    (∀ (h : Heap) (id : Nat) (args : List JSVal),
       heapValid h → heapValid (callParam h id args).1) := by
  refine ⟨?_, ?_, ?_, ?_, ?_⟩
  · intro h g init v hg
    unfold makeParameter
    rw [hg]
  · intro h g init e hg
    unfold makeParameter
    rw [hg]
  · intro h id cell v e hc hg
    exact callParam_set_err h id cell v [] e hc hg
  · intro h init g h2 p hvalid hmk
    cases hgi : g init with
    | error e =>
      unfold makeParameter at hmk
      rw [hgi] at hmk
      cases hmk
    | ok v =>
      unfold makeParameter at hmk
      rw [hgi] at hmk
      injection hmk with hmk2
      injection hmk2 with hh hp
      subst hh
      intro i cell2 hc2
      rcases lt_trichotomy i h.cells.length with hlt | heq | hgt
      · rw [List.get?_append hlt] at hc2
        exact hvalid i cell2 hc2
      · subst heq
        rw [List.get?_concat_length] at hc2
        injection hc2 with hcell
        subst hcell
        exact ⟨init, hgi⟩
      · have hlen : (h.cells ++ [Cell.mk v g]).length ≤ i := by
          rw [List.length_append]
          simpa using hgt
        rw [List.get?_eq_none.mpr hlen] at hc2
        cases hc2
  · intro h id args hvalid
    cases hc : h.cells.get? id with
    | none => rw [callParam_dangling h id args hc]; exact hvalid
    | some cell =>
      cases args with
      | nil => rw [callParam_get h id cell hc]; exact hvalid
      | cons a rest =>
        cases hg : cell.guard a with
        | error e =>
          rw [callParam_set_err h id cell a rest e hc hg]
          exact hvalid
        | ok v =>
          rw [callParam_set_ok h id cell a rest v hc hg]
          intro i cell2 hc2
          by_cases hi : i = id
          · subst hi
            rw [setCell_get_self h i v cell hc] at hc2
            injection hc2 with hcell
            subst hcell
            exact ⟨a, hg⟩
          · rw [setCell_get_ne h id i v hi] at hc2
            exact hvalid i cell2 hc2

/-- Witness for claim C3: makeParameter(0, negGuard) fails with the guard's
own failure and produces nothing; a set of -1 on a positive-guard parameter
propagates the rejection and leaves 1 stored; makeParameter(1, negGuard)
produces a valid heap. -/
theorem claim3_witness :
    makeParameter ⟨[]⟩ (.num 0) negGuard = .error (.guardErr (.num 0)) ∧
    callParam ⟨[⟨.num 1, negGuard⟩]⟩ 0 [.num (-1)] =
      (⟨[⟨.num 1, negGuard⟩]⟩, .error (.guardErr (.num (-1)))) ∧
    heapValid (⟨[⟨.num 1, negGuard⟩]⟩ : Heap) := by
  refine ⟨?_, ?_, ?_⟩
  · exact claim3_guard_invariant.2.1 ⟨[]⟩ negGuard (.num 0)
      (.guardErr (.num 0)) rfl
  · exact claim3_guard_invariant.2.2.1 ⟨[⟨.num 1, negGuard⟩]⟩ 0
      ⟨.num 1, negGuard⟩ (.num (-1)) (.guardErr (.num (-1))) rfl rfl
  · have hempty : heapValid (⟨[]⟩ : Heap) := by
      intro i cell hc
      cases i with
      | zero => cases hc
      | succ n => cases hc
    exact claim3_guard_invariant.2.2.2.1 ⟨[]⟩ (.num 1) negGuard
      ⟨[⟨.num 1, negGuard⟩]⟩ (.param 0) hempty rfl

/-- Claim C6: isParameter recognises exactly the values makeParameter
produced: the reference returned by a successful makeParameter satisfies
it, everything it accepts is a reference to an allocated cell, every plain
callable (whatever its arity, hence whatever shape or behaviour it copies)
is rejected, and the check is a total boolean — it never throws. -/
theorem claim6_isParameter (h : Heap) :
    (∀ (init : JSVal) (g : Guard) (h2 : Heap) (p : JSVal),
       makeParameter h init g = .ok (h2, p) → isParameter h2 p = true) ∧
    (∀ v, isParameter h v = true →
       ∃ id, v = .param id ∧ id < h.cells.length) ∧
    (∀ n, isParameter h (.func n) = false) ∧
    (∀ v, isParameter h v = true ∨ isParameter h v = false) := by
  refine ⟨?_, ?_, ?_, ?_⟩
  · intro init g h2 p hmk
    cases hgi : g init with
    | error e =>
      unfold makeParameter at hmk
      rw [hgi] at hmk
      cases hmk
    | ok v =>
      unfold makeParameter at hmk
      rw [hgi] at hmk
      injection hmk with hmk2
      injection hmk2 with hh hp
      subst hh
      subst hp
      simp [isParameter]
  · intro v hv
    cases v with
    | param id =>
      refine ⟨id, rfl, ?_⟩
      simpa [isParameter] using hv
    | undefined => cases hv
    | bool b => cases hv
    | num n => cases hv
    | str s => cases hv
    | arr l => cases hv
    | func n => cases hv
  · intro n; rfl
  · intro v
    cases hb : isParameter h v
    · right; rfl
    · left; rfl

/-- Witness for claim C6: the parameter produced by makeParameter(42) over
the empty heap is recognised, and a zero-argument plain function of the
same shape as a parameter is not. -/
theorem claim6_witness :
    isParameter ⟨[⟨.num 42, idGuard⟩]⟩ (.param 0) = true ∧
    isParameter ⟨[⟨.num 42, idGuard⟩]⟩ (.func 0) = false := by
  constructor
  · exact (claim6_isParameter ⟨[]⟩).1 (.num 42) idGuard
      ⟨[⟨.num 42, idGuard⟩]⟩ (.param 0) rfl
  · exact (claim6_isParameter ⟨[⟨.num 42, idGuard⟩]⟩).2.2.1 0

/-- Claim C7: when parameterize's preconditions fail — the bindings value
is not an array of exactly-two-element pairs, the thunk is not a
zero-argument function, or some pair's first element is not a parameter —
it returns the TypeError (the spec's InvalidArgumentError) with the heap
unchanged: every pair is checked before the apply step begins, so no
parameter is mutated. -/
theorem claim7_preconditions (h : Heap) (parameters : JSVal)
    (thunk : ThunkArg)
    (hbad : ¬ validBindings h parameters ∨ isThunk thunk = false) :
    (parameterize h parameters thunk).1 = h ∧
    ∃ msg, (parameterize h parameters thunk).2 = .error (.typeError msg) := by
  cases parameters with
  | arr pairs =>
    by_cases hall : pairs.all isPair = true
    · cases thunk with
      | nonFn v =>
        have hrun : parameterize h (.arr pairs) (.nonFn v) =
            (h, .error (.typeError "Expected second argument to be a thunk")) := by
          simp only [parameterize, hall, if_true]
        rw [hrun]
        exact ⟨rfl, "Expected second argument to be a thunk", rfl⟩
      | fn arity body =>
        cases arity with
        | succ n =>
          have hrun : parameterize h (.arr pairs) (.fn (n + 1) body) =
              (h, .error (.typeError "Expected second argument to be a thunk")) := by
            simp only [parameterize, hall, if_true]
          rw [hrun]
          exact ⟨rfl, "Expected second argument to be a thunk", rfl⟩
        | zero =>
          have hinv : ∃ pr ∈ pairs, isParameter h (firstOfPair pr) = false := by
            rcases hbad with hnv | hth
            · by_contra hno
              push_neg at hno
              refine hnv ⟨pairs, rfl, hall, ?_⟩
              intro pr hpr
              cases hp : isParameter h (firstOfPair pr)
              · exact absurd hp (hno pr hpr)
              · rfl
            · cases hth
          have hsnap := snapshotLoop_error_of_invalid h pairs hinv []
          have hrun : parameterize h (.arr pairs) (.fn 0 body) =
              (h, .error (.typeError "Expected first item of pair to be a parameter")) := by
            simp only [parameterize, hall, if_true, hsnap]
          rw [hrun]
          exact ⟨rfl, "Expected first item of pair to be a parameter", rfl⟩
    · have hallf : pairs.all isPair = false := by
        cases hp : pairs.all isPair
        · rfl
        · exact absurd hp hall
      have hrun : parameterize h (.arr pairs) thunk =
          (h, .error (.typeError "Expected first argument to be an array of pairs")) := by
        simp [parameterize, hallf]
      rw [hrun]
      exact ⟨rfl, "Expected first argument to be an array of pairs", rfl⟩
  | undefined =>
    exact ⟨rfl, "Expected first argument to be an array of pairs", rfl⟩
  | bool b =>
    exact ⟨rfl, "Expected first argument to be an array of pairs", rfl⟩
  | num n =>
    exact ⟨rfl, "Expected first argument to be an array of pairs", rfl⟩
  | str s =>
    exact ⟨rfl, "Expected first argument to be an array of pairs", rfl⟩
  | func n =>
    exact ⟨rfl, "Expected first argument to be an array of pairs", rfl⟩
  | param i =>
    exact ⟨rfl, "Expected first argument to be an array of pairs", rfl⟩

/-- Witness for claim C7: passing the number 5 as bindings fails with a
TypeError and leaves the makeParameter(1) heap untouched. -/
theorem claim7_witness :
    (parameterize heapOne (.num 5) (.fn 0 noopBody)).1 = heapOne ∧
    ∃ msg, (parameterize heapOne (.num 5) (.fn 0 noopBody)).2 =
      .error (.typeError msg) := by
  refine claim7_preconditions heapOne (.num 5) (.fn 0 noopBody) (Or.inl ?_)
  rintro ⟨pairs, hp, -, -⟩
  cases hp

/-- Helper: run shape when the apply loop fails and every restoration
succeeds. -/
theorem parameterize_run_applyfail (h h1 h2 : Heap) (pairs : List JSVal)
    (body : Body) (m : List (Nat × JSVal)) (e : JSErr)
    (hall : pairs.all isPair = true)
    (hsnap : snapshotLoop h pairs [] = .ok m)
    (happ : applyLoop h pairs = (h1, some e))
    (hres : restoreLoop h1 m = (h2, none)) :
    parameterize h (.arr pairs) (.fn 0 body) = (h2, .error e) := by
  rw [parameterize_run h pairs body m hall hsnap, happ]
  show (match restoreLoop h1 m with
    | (ha, some e2) => (ha, Except.error e2)
    | (ha, none) => (ha, Except.error e)) = (h2, Except.error e)
  rw [hres]

/-- Helper: run shape when application succeeds, the body throws, and every
restoration succeeds. -/
theorem parameterize_run_bodyfail (h h1 h2 h3 : Heap) (pairs : List JSVal)
    (body : Body) (m : List (Nat × JSVal)) (e : JSErr)
    (hall : pairs.all isPair = true)
    (hsnap : snapshotLoop h pairs [] = .ok m)
    (happ : applyLoop h pairs = (h1, none))
    (hbodyrun : body h1 = (h2, .error e))
    (hres : restoreLoop h2 m = (h3, none)) :
    parameterize h (.arr pairs) (.fn 0 body) = (h3, .error e) := by
  rw [parameterize_run h pairs body m hall hsnap, happ]
  show (match body h1 with
    | (hb, result) =>
      match restoreLoop hb m with
      | (ha, some e2) => (ha, Except.error e2)
      | (ha, none) => (ha, result)) = (h3, Except.error e)
  rw [hbodyrun]
  show (match restoreLoop h2 m with
    | (ha, some e2) => (ha, Except.error e2)
    | (ha, none) => (ha, Except.error e)) = (h3, Except.error e)
  rw [hres]

/-- Helper: carry the per-entry restore hypotheses from the pre-call heap
to any guard-preserving evolution of it. -/
theorem restore_hyp_transfer (h hb : Heap) (m : List (Nat × JSVal))
    (hgp : guardsPreserved h hb)
    (hrestore : ∀ p ∈ m, ∃ cell w, h.cells.get? p.1 = some cell ∧
       cell.guard p.2 = .ok w) :
    ∀ p ∈ m, ∃ cell w, hb.cells.get? p.1 = some cell ∧
      cell.guard p.2 = .ok w := by
  intro p hp
  obtain ⟨cell, w, hc, hw⟩ := hrestore p hp
  obtain ⟨cell1, hc1, hgeq⟩ := hgp.2 p.1 cell hc
  refine ⟨cell1, w, hc1, ?_⟩
  rw [hgeq]
  exact hw

/-- Claim C1 counterexample: take the increment guard holding 1 and the
binding [[p, 5]] with a throwing body.  All pairs pass validation and the
body's failure is propagated after restoration — but the parameter does not
return its pre-call value 1: restoration re-ran the guard, leaving 2. -/
theorem claim1_counterexample :
    heapInc.cellValue 0 = some (.num 1) ∧
    (parameterize heapInc (.arr [.arr [.param 0, .num 5]])
        (.fn 0 throwBody)).2 = .error (.guardErr (.str "boom")) ∧
    (parameterize heapInc (.arr [.arr [.param 0, .num 5]])
        (.fn 0 throwBody)).1.cellValue 0 = some (.num 2) ∧
    some (JSVal.num 2) ≠ some (JSVal.num 1) := by
  refine ⟨rfl, rfl, rfl, ?_⟩
  simp

/-- Claim C1 amended: for every bindings list whose pairs all pass
validation and every (guard-preserving) body, if the apply step fails or
the body throws, parameterize propagates that failure only after the
restoration step has run for every snapshotted parameter — provided each
guard re-accepts its snapshotted pre-call value — and each parameter listed
in bindings afterwards holds its guard's output on its pre-call value
(the pre-call value itself whenever the guard fixes it, e.g. the default
identity guard). -/
theorem claim1_restore_after_failure (h : Heap) (pairs : List JSVal)
    (body : Body) (m : List (Nat × JSVal)) (e : JSErr)
    (hall : pairs.all isPair = true)
    (hsnap : snapshotLoop h pairs [] = .ok m)
    (hbody : BodyOk body)
    (hfail : (∃ h1, applyLoop h pairs = (h1, some e)) ∨
      (∃ h1 h2, applyLoop h pairs = (h1, none) ∧ body h1 = (h2, .error e)))
    (hrestore : ∀ p ∈ m, ∃ cell w, h.cells.get? p.1 = some cell ∧
       cell.guard p.2 = .ok w) :
    (parameterize h (.arr pairs) (.fn 0 body)).2 = .error e ∧
    ∀ p ∈ m, h.cellValue p.1 = some p.2 ∧
      ∃ cell w, h.cells.get? p.1 = some cell ∧ cell.guard p.2 = .ok w ∧
        (parameterize h (.arr pairs) (.fn 0 body)).1.cellValue p.1 = some w := by
  have hnodup : (m.map Prod.fst).Nodup :=
    snapshotLoop_nodup h pairs [] m hsnap List.nodup_nil
  have hentries : ∀ p ∈ m, h.cellValue p.1 = some p.2 :=
    snapshotLoop_entries h pairs [] m hsnap (by intro p hp; cases hp)
  rcases hfail with ⟨h1, happ⟩ | ⟨h1, h2, happ, hbodyrun⟩
  · have hgp1 : guardsPreserved h h1 := by
      have hx := guardsPreserved_applyLoop h pairs
      rw [happ] at hx
      exact hx
    have hrest1 := restore_hyp_transfer h h1 m hgp1 hrestore
    obtain ⟨hnone, hfinal⟩ := restoreLoop_all_ok m h1 hnodup hrest1
    rcases hres : restoreLoop h1 m with ⟨h2, rerr⟩
    rw [hres] at hnone hfinal
    have hrerr : rerr = none := hnone
    have hrun := parameterize_run_applyfail h h1 h2 pairs body m e hall hsnap
      happ (by rw [hres, hrerr])
    rw [hrun]
    refine ⟨rfl, ?_⟩
    intro p hp
    refine ⟨hentries p hp, ?_⟩
    obtain ⟨cell1, w1, hc1, hg1, hv1⟩ := hfinal p hp
    obtain ⟨cell, w, hc, hg⟩ := hrestore p hp
    obtain ⟨cell1a, hc1a, hgeq⟩ := hgp1.2 p.1 cell hc
    have hce : cell1a = cell1 := by
      rw [hc1a] at hc1
      injection hc1
    refine ⟨cell, w1, hc, ?_, hv1⟩
    rw [← hgeq, hce]
    exact hg1
  · have hgp1 : guardsPreserved h h1 := by
      have hx := guardsPreserved_applyLoop h pairs
      rw [happ] at hx
      exact hx
    have hgp2 : guardsPreserved h1 h2 := by
      have hx := hbody h1
      rw [hbodyrun] at hx
      exact hx
    have hgp := guardsPreserved_trans hgp1 hgp2
    have hrest2 := restore_hyp_transfer h h2 m hgp hrestore
    obtain ⟨hnone, hfinal⟩ := restoreLoop_all_ok m h2 hnodup hrest2
    rcases hres : restoreLoop h2 m with ⟨h3, rerr⟩
    rw [hres] at hnone hfinal
    have hrerr : rerr = none := hnone
    have hrun := parameterize_run_bodyfail h h1 h2 h3 pairs body m e hall
      hsnap happ hbodyrun (by rw [hres, hrerr])
    rw [hrun]
    refine ⟨rfl, ?_⟩
    intro p hp
    refine ⟨hentries p hp, ?_⟩
    obtain ⟨cell1, w1, hc1, hg1, hv1⟩ := hfinal p hp
    obtain ⟨cell, w, hc, hg⟩ := hrestore p hp
    obtain ⟨cell1a, hc1a, hgeq⟩ := hgp.2 p.1 cell hc
    have hce : cell1a = cell1 := by
      rw [hc1a] at hc1
      injection hc1
    refine ⟨cell, w1, hc, ?_, hv1⟩
    rw [← hgeq, hce]
    exact hg1

/-- Witness for claim C1 amended: identity-guard parameter makeParameter(1)
bound to 5 with a throwing body: parameterize reports the body's failure
and the parameter ends restored to 1, its pre-call value. -/
theorem claim1_witness :
    (parameterize heapOne (.arr [.arr [.param 0, .num 5]])
        (.fn 0 throwBody)).2 = .error (.guardErr (.str "boom")) ∧
    (parameterize heapOne (.arr [.arr [.param 0, .num 5]])
        (.fn 0 throwBody)).1.cellValue 0 = some (.num 1) := by
  have hmain := claim1_restore_after_failure heapOne
    [.arr [.param 0, .num 5]] throwBody [(0, .num 1)]
    (.guardErr (.str "boom")) rfl rfl
    (fun hh => guardsPreserved_refl hh)
    (Or.inr ⟨heapOne.setCell 0 (.num 5), heapOne.setCell 0 (.num 5),
      apply_single_ok heapOne 0 ⟨.num 1, idGuard⟩ (.num 5) (.num 5) rfl rfl,
      rfl⟩)
    (by
      intro p hp
      rcases List.mem_singleton.mp hp with rfl
      exact ⟨⟨.num 1, idGuard⟩, .num 1, rfl, rfl⟩)
  obtain ⟨hr, hall⟩ := hmain
  obtain ⟨-, cell, w, hc, hg, hv⟩ := hall (0, .num 1) (List.mem_singleton.mpr rfl)
  refine ⟨hr, ?_⟩
  have hcell : cell = Cell.mk (.num 1) idGuard := by
    injection hc with hcc
    exact hcc.symm
  subst hcell
  have hw : w = JSVal.num 1 := by
    injection hg with hg2
    exact hg2.symm
  rw [hv, hw]

/-! ### Claim C4: duplicate bindings -/

theorem mapSet_nil (k : Nat) (v : JSVal) : mapSet [] k v = [(k, v)] := rfl

theorem mapSet_single_same (k : Nat) (u v : JSVal) :
    mapSet [(k, u)] k v = [(k, v)] := by
  unfold mapSet
  simp

/-- Claim C4: a duplicated parameter is snapshotted at its original
pre-rebinding value — the whole snapshot loop runs before the apply loop,
so the second read is not stale — and the Map keyed by parameter identity
holds one entry, restored exactly once: with both literals accepted
verbatim by the guard and the guard fixing the current value,
parameterize([[p,"x"],[p,"y"]], () => p()) returns "y" and leaves p at its
pre-call value; in general every snapshot of any bindings list has
duplicate-free keys and records only pre-call values. -/
theorem claim4_duplicates (h : Heap) (id : Nat) (cell : Cell)
    (hc : h.cells.get? id = some cell)
    (hgx : cell.guard (.str "x") = .ok (.str "x"))
    (hgy : cell.guard (.str "y") = .ok (.str "y"))
    (hgu : cell.guard cell.value = .ok cell.value) :
    (parameterize h
        (.arr [.arr [.param id, .str "x"], .arr [.param id, .str "y"]])
        (.fn 0 (getBodyAt id))).2 = .ok (.str "y") ∧
    (parameterize h
        (.arr [.arr [.param id, .str "x"], .arr [.param id, .str "y"]])
        (.fn 0 (getBodyAt id))).1.cellValue id = h.cellValue id ∧
    (∀ pairs m, snapshotLoop h pairs [] = .ok m →
       (m.map Prod.fst).Nodup ∧ ∀ p ∈ m, h.cellValue p.1 = some p.2) := by
  have hc1 : (h.setCell id (.str "x")).cells.get? id =
      some ⟨.str "x", cell.guard⟩ :=
    setCell_get_self h id (.str "x") cell hc
  have hc2 : ((h.setCell id (.str "x")).setCell id (.str "y")).cells.get? id =
      some ⟨.str "y", cell.guard⟩ :=
    setCell_get_self (h.setCell id (.str "x")) id (.str "y")
      ⟨.str "x", cell.guard⟩ hc1
  have hsnap : snapshotLoop h
      [.arr [.param id, .str "x"], .arr [.param id, .str "y"]] [] =
      .ok [(id, cell.value)] := by
    rw [snapshotLoop_cons_ok h (.arr [.param id, .str "x"])
      [.arr [.param id, .str "y"]] [] id cell rfl hc]
    rw [mapSet_nil]
    rw [snapshotLoop_cons_ok h (.arr [.param id, .str "y"]) []
      [(id, cell.value)] id cell rfl hc]
    rw [mapSet_single_same]
    rfl
  have happ : applyLoop h
      [.arr [.param id, .str "x"], .arr [.param id, .str "y"]] =
      ((h.setCell id (.str "x")).setCell id (.str "y"), none) := by
    rw [applyLoop_cons_ok h (h.setCell id (.str "x"))
      (.arr [.param id, .str "x"]) [.arr [.param id, .str "y"]] id (.str "x")
      rfl (callParam_set_ok h id cell (.str "x") [] (.str "x") hc hgx)]
    rw [applyLoop_cons_ok (h.setCell id (.str "x"))
      ((h.setCell id (.str "x")).setCell id (.str "y"))
      (.arr [.param id, .str "y"]) [] id (.str "y") rfl
      (callParam_set_ok (h.setCell id (.str "x")) id ⟨.str "x", cell.guard⟩
        (.str "y") [] (.str "y") hc1 hgy)]
    rfl
  have hbodyrun : getBodyAt id ((h.setCell id (.str "x")).setCell id (.str "y")) =
      (((h.setCell id (.str "x")).setCell id (.str "y")), .ok (.str "y")) := by
    unfold getBodyAt
    rw [callParam_get ((h.setCell id (.str "x")).setCell id (.str "y")) id
      ⟨.str "y", cell.guard⟩ hc2]
  have hres : restoreLoop ((h.setCell id (.str "x")).setCell id (.str "y"))
      [(id, cell.value)] =
      (((h.setCell id (.str "x")).setCell id (.str "y")).setCell id
        cell.value, none) :=
    restoreLoop_cons_ok ((h.setCell id (.str "x")).setCell id (.str "y")) id
      cell.value [] ⟨.str "y", cell.guard⟩ cell.value hc2 hgu
  have hrun : parameterize h
      (.arr [.arr [.param id, .str "x"], .arr [.param id, .str "y"]])
      (.fn 0 (getBodyAt id)) =
      ((((h.setCell id (.str "x")).setCell id (.str "y")).setCell id
        cell.value), .ok (.str "y")) := by
    rw [parameterize_run h
      [.arr [.param id, .str "x"], .arr [.param id, .str "y"]]
      (getBodyAt id) [(id, cell.value)] rfl hsnap, happ]
    show (match getBodyAt id ((h.setCell id (.str "x")).setCell id (.str "y")) with
      | (hb, result) =>
        match restoreLoop hb [(id, cell.value)] with
        | (ha, some e2) => (ha, Except.error e2)
        | (ha, none) => (ha, result)) = _
    rw [hbodyrun]
    show (match restoreLoop ((h.setCell id (.str "x")).setCell id (.str "y"))
        [(id, cell.value)] with
      | (ha, some e2) => (ha, Except.error e2)
      | (ha, none) => (ha, Except.ok (JSVal.str "y"))) = _
    rw [hres]
  refine ⟨by rw [hrun], ?_, ?_⟩
  · rw [hrun]
    show (((h.setCell id (.str "x")).setCell id (.str "y")).setCell id
      cell.value).cellValue id = h.cellValue id
    rw [cellValue_setCell_self ((h.setCell id (.str "x")).setCell id (.str "y"))
      id cell.value ⟨.str "y", cell.guard⟩ hc2]
    unfold Heap.cellValue
    rw [hc]
    rfl
  · intro pairs m hsn
    exact ⟨snapshotLoop_nodup h pairs [] m hsn List.nodup_nil,
      snapshotLoop_entries h pairs [] m hsn (by intro p hp; cases hp)⟩

/-- Witness for claim C4 at makeParameter("z"): returns "y" and restores
"z". -/
theorem claim4_witness :
    (parameterize heapZ
        (.arr [.arr [.param 0, .str "x"], .arr [.param 0, .str "y"]])
        (.fn 0 (getBodyAt 0))).2 = .ok (.str "y") ∧
    (parameterize heapZ
        (.arr [.arr [.param 0, .str "x"], .arr [.param 0, .str "y"]])
        (.fn 0 (getBodyAt 0))).1.cellValue 0 = some (.str "z") := by
  have hmain := claim4_duplicates heapZ 0 ⟨.str "z", idGuard⟩ rfl rfl rfl rfl
  refine ⟨hmain.1, ?_⟩
  rw [hmain.2.1]
  rfl

/-! ### Claim C5: nesting -/

/-- Claim C5 counterexample: with the increment guard, after the outer
apply the parameter holds 3 (the outer-rebound value), but once the inner
parameterize([[p,3]], () => p()) completes the parameter holds 4, not 3:
inner restoration re-ran the guard on the snapshot instead of writing the
outer-rebound value back. -/
theorem claim5_counterexample :
    (applyLoop heapInc [.arr [.param 0, .num 2]]).1.cellValue 0 =
      some (.num 3) ∧
    (parameterize (applyLoop heapInc [.arr [.param 0, .num 2]]).1
        (.arr [.arr [.param 0, .num 3]])
        (.fn 0 (getBodyAt 0))).1.cellValue 0 = some (.num 4) ∧
    some (JSVal.num 4) ≠ some (JSVal.num 3) := by
  refine ⟨rfl, rfl, ?_⟩
  simp

/-- Claim C5 amended: nested calls layer: the inner call's snapshot
captures the outer-rebound value w2 and its restoration sets the parameter
to the guard's output on w2 — which is w2 itself whenever the guard fixes
its own outputs, in particular for the default identity guard — and the
concrete scenario holds: the nested run returns the inner-bound value and
afterwards the parameter holds the guard's output on its original value
(the original itself under the identity guard). -/
theorem claim5_nesting (h : Heap) (id : Nat) (cell : Cell)
    (v2 w2 v3 w3 r2 r1 : JSVal)
    (hc : h.cells.get? id = some cell)
    (hg2 : cell.guard v2 = .ok w2)
    (hg3 : cell.guard v3 = .ok w3)
    (hr2 : cell.guard w2 = .ok r2)
    (hr1 : cell.guard cell.value = .ok r1) :
    (applyLoop h [.arr [.param id, v2]]).1.cellValue id = some w2 ∧
    snapshotLoop (h.setCell id w2) [.arr [.param id, v3]] [] =
      .ok [(id, w2)] ∧
    parameterize (h.setCell id w2) (.arr [.arr [.param id, v3]])
        (.fn 0 (getBodyAt id)) =
      (((h.setCell id w2).setCell id w3).setCell id r2, .ok w3) ∧
    (parameterize h (.arr [.arr [.param id, v2]])
        (.fn 0 (innerCall id v3))).2 = .ok w3 ∧
    (parameterize h (.arr [.arr [.param id, v2]])
        (.fn 0 (innerCall id v3))).1.cellValue id = some r1 := by
  have hc1 : (h.setCell id w2).cells.get? id = some ⟨w2, cell.guard⟩ :=
    setCell_get_self h id w2 cell hc
  have hc2 : ((h.setCell id w2).setCell id w3).cells.get? id =
      some ⟨w3, cell.guard⟩ :=
    setCell_get_self (h.setCell id w2) id w3 ⟨w2, cell.guard⟩ hc1
  have hc3 : (((h.setCell id w2).setCell id w3).setCell id r2).cells.get? id =
      some ⟨r2, cell.guard⟩ :=
    setCell_get_self ((h.setCell id w2).setCell id w3) id r2
      ⟨w3, cell.guard⟩ hc2
  have hinner : parameterize (h.setCell id w2) (.arr [.arr [.param id, v3]])
      (.fn 0 (getBodyAt id)) =
      (((h.setCell id w2).setCell id w3).setCell id r2, .ok w3) := by
    rw [parameterize_single_ok (h.setCell id w2) id ⟨w2, cell.guard⟩ v3 w3
      (getBodyAt id) hc1 hg3]
    have hbodyrun : getBodyAt id ((h.setCell id w2).setCell id w3) =
        ((h.setCell id w2).setCell id w3, .ok w3) := by
      unfold getBodyAt
      rw [callParam_get ((h.setCell id w2).setCell id w3) id
        ⟨w3, cell.guard⟩ hc2]
    show (match getBodyAt id ((h.setCell id w2).setCell id w3) with
      | (hb, result) =>
        match restoreLoop hb [(id, w2)] with
        | (ha, some e2) => (ha, Except.error e2)
        | (ha, none) => (ha, result)) = _
    rw [hbodyrun]
    show (match restoreLoop ((h.setCell id w2).setCell id w3) [(id, w2)] with
      | (ha, some e2) => (ha, Except.error e2)
      | (ha, none) => (ha, Except.ok w3)) = _
    rw [restoreLoop_cons_ok ((h.setCell id w2).setCell id w3) id w2 []
      ⟨w3, cell.guard⟩ r2 hc2 hr2]
    rfl
  have houter : parameterize h (.arr [.arr [.param id, v2]])
      (.fn 0 (innerCall id v3)) =
      ((((h.setCell id w2).setCell id w3).setCell id r2).setCell id r1,
       .ok w3) := by
    rw [parameterize_single_ok h id cell v2 w2 (innerCall id v3) hc hg2]
    have hbodyrun : innerCall id v3 (h.setCell id w2) =
        (((h.setCell id w2).setCell id w3).setCell id r2, .ok w3) := by
      unfold innerCall
      exact hinner
    show (match innerCall id v3 (h.setCell id w2) with
      | (hb, result) =>
        match restoreLoop hb [(id, cell.value)] with
        | (ha, some e2) => (ha, Except.error e2)
        | (ha, none) => (ha, result)) = _
    rw [hbodyrun]
    show (match restoreLoop (((h.setCell id w2).setCell id w3).setCell id r2)
        [(id, cell.value)] with
      | (ha, some e2) => (ha, Except.error e2)
      | (ha, none) => (ha, Except.ok w3)) = _
    rw [restoreLoop_cons_ok (((h.setCell id w2).setCell id w3).setCell id r2)
      id cell.value [] ⟨r2, cell.guard⟩ r1 hc3 hr1]
    rfl
  refine ⟨?_, ?_, hinner, ?_, ?_⟩
  · rw [apply_single_ok h id cell v2 w2 hc hg2]
    exact cellValue_setCell_self h id w2 cell hc
  · exact snapshot_single (h.setCell id w2) id ⟨w2, cell.guard⟩ v3 hc1
  · rw [houter]
  · rw [houter]
    exact cellValue_setCell_self (((h.setCell id w2).setCell id w3).setCell
      id r2) id r1 ⟨r2, cell.guard⟩ hc3

/-- Witness for claim C5: the spec's concrete scenario at makeParameter(1):
parameterize([[n,2]], () => parameterize([[n,3]], () => n())) returns 3 and
afterwards n() returns 1. -/
theorem claim5_witness :
    (parameterize heapOne (.arr [.arr [.param 0, .num 2]])
        (.fn 0 (innerCall 0 (.num 3)))).2 = .ok (.num 3) ∧
    (parameterize heapOne (.arr [.arr [.param 0, .num 2]])
        (.fn 0 (innerCall 0 (.num 3)))).1.cellValue 0 = some (.num 1) := by
  have hmain := claim5_nesting heapOne 0 ⟨.num 1, idGuard⟩ (.num 2) (.num 2)
    (.num 3) (.num 3) (.num 2) (.num 1) rfl rfl rfl rfl rfl
  exact ⟨hmain.2.2.2.1, hmain.2.2.2.2⟩

end ParameterJS
